import Mathlib

/-!
Shallow embedding of the EditorBackend lifecycle services
(`src/service/UserService.ts`, `src/service/ArticleService.ts`,
`src/model/User.ts`, `src/model/Article.ts`).

Both sequelize models are declared `paranoid: true`: a default query
(`findOne`, `findByPk`, `count`) adds an implicit `deletedAt IS NULL`
filter, `destroy()` stamps `deletedAt`, `restore()` clears it, and
`paranoid: false` disables the filter.  The embedding represents a table
as a list of records, a row's `deletedAt : Option Nat` as the lifecycle
flag (none = active), and every service method as a pure function from a
`Store` to an `Except` result, threading the updated store explicitly.

The bcrypt collaborator is modelled as an injective tagging function:
`bcryptCompare plain hashed` succeeds exactly when `hashed` is the hash
of `plain`, mirroring `bcrypt.compare`.

MySQL-level unique indexes declared in the models (`username_unique`,
`email_unique` on users; `article_title`, `article_content` on articles)
span soft-deleted rows, since soft deletion keeps the row in the table;
the `_dbCreate`/`_dbUpdate` functions model that last line of defense.
Column validators (length / isEmail) belong to the request-validation
layer that the specification rules out of scope and are not modelled;
no theorem below depends on an insert succeeding for arbitrary field
values.
-/

/-- Model of `bcrypt.hash(s, 10)`: an opaque tagged value. -/
def bcryptHash (s : String) : String := "bcrypt$" ++ s

/-- Model of `bcrypt.compare(plain, hashed)`. -/
def bcryptCompare (plain hashed : String) : Bool :=
  hashed == bcryptHash plain

/-- A row of the `users` table (`src/model/User.ts`). -/
structure UserRec where
  id : Nat
  username : String
  email : String
  password : String
  role : String
  createdAt : Nat
  updatedAt : Nat
  deletedAt : Option Nat
deriving Repr, DecidableEq

/-- A user as returned with `attributes: { exclude: ['password'] }`. -/
structure PublicUser where
  id : Nat
  username : String
  email : String
  role : String
  createdAt : Nat
  updatedAt : Nat
  deletedAt : Option Nat
deriving Repr, DecidableEq

/-- Dropping the password column from a row. -/
def sanitize (u : UserRec) : PublicUser :=
  { id := u.id, username := u.username, email := u.email, role := u.role
  , createdAt := u.createdAt, updatedAt := u.updatedAt, deletedAt := u.deletedAt }

/-- A row of the `articles` table (`src/model/Article.ts`). -/
structure ArticleRec where
  id : Nat
  title : String
  content : String
  userId : Nat
  createdAt : Nat
  updatedAt : Nat
  deletedAt : Option Nat
deriving Repr, DecidableEq

/-- The shared relational datastore: both tables, the auto-increment
counters, and the clock used for timestamps. -/
structure Store where
  users : List UserRec
  articles : List ArticleRec
  nextUserId : Nat
  nextArticleId : Nat
  now : Nat
deriving Repr, DecidableEq

/-- Rows visible to a default (paranoid) query on `users`. -/
def activeUsers (st : Store) : List UserRec :=
  st.users.filter (fun u => u.deletedAt == none)

/-- Rows visible to a default (paranoid) query on `articles`. -/
def activeArticles (st : Store) : List ArticleRec :=
  st.articles.filter (fun a => a.deletedAt == none)

/-- The typed error outcomes of the two services; each constructor stands
for one distinct thrown message (or the storage layer's own rejection). -/
inductive SvcError where
  | emailTaken
  | usernameTaken
  | titleTaken
  | notFound
  | notDeleted
  | forbidden
  | parentNotFound
  | uniqueViolation
  | storageFailure
deriving Repr, DecidableEq

/-- JS truthiness of an optional string (`undefined` and `""` are falsy). -/
def jsTruthyStr : Option String → Bool
  | none => false
  | some s => !s.isEmpty

/-- JS truthiness of an optional number (`undefined` and `0` are falsy). -/
def jsTruthyNat : Option Nat → Bool
  | none => false
  | some n => n != 0

/-- Storage-level `INSERT` into `users`: the unique indexes span all rows
(soft-deleted included), and the `@BeforeCreate` hook `hashPassword`
hashes the incoming password field (`isNewRecord` is true). -/
def User_dbCreate (st : Store) (username email password role : String) :
    Except SvcError (UserRec × Store) :=
  if st.users.any (fun u => u.username == username) then .error .uniqueViolation
  else if st.users.any (fun u => u.email == email) then .error .uniqueViolation
  else
    let u : UserRec :=
      { id := st.nextUserId, username := username, email := email
      , password := bcryptHash password, role := role
      , createdAt := st.now, updatedAt := st.now, deletedAt := none }
    .ok (u, { st with users := st.users ++ [u], nextUserId := st.nextUserId + 1 })

/-- `UserService.createUser`: duplicate pre-checks via default (paranoid)
`findOne`, then a service-layer `bcrypt.hash`, then the insert (which the
model hook hashes again). `role || 'user'` is a JS truthiness default. -/
def createUser (st : Store) (username email password : String)
    (role : Option String) : Except SvcError (UserRec × Store) :=
  if (activeUsers st).any (fun u => u.email == email) then .error .emailTaken
  else if (activeUsers st).any (fun u => u.username == username) then .error .usernameTaken
  else User_dbCreate st username email (bcryptHash password)
    (if jsTruthyStr role then role.getD "user" else "user")

/-- `UserService.getUserById`: default-visibility `findByPk`, password
excluded. -/
def getUserById (st : Store) (id : Nat) : Option PublicUser :=
  ((activeUsers st).find? (fun u => u.id == id)).map sanitize

/-- `destroy()` on a user instance: stamps `deletedAt` on the row with
that primary key. -/
def stampUserDeleted (st : Store) (id : Nat) : Store :=
  { st with users :=
      st.users.map (fun v =>
        if v.id == id then { v with deletedAt := some st.now } else v) }

/-- `restore()` on a user instance: clears `deletedAt` on the row with
that primary key. -/
def clearUserDeleted (st : Store) (id : Nat) : Store :=
  { st with users :=
      st.users.map (fun v =>
        if v.id == id then { v with deletedAt := none } else v) }

/-- `UserService.deleteUser` (soft delete): default-visibility `findByPk`
then `destroy()`, which stamps `deletedAt` on the row with that key. -/
def deleteUser (st : Store) (id : Nat) : Except SvcError Store :=
  match (activeUsers st).find? (fun u => u.id == id) with
  | none => .error .notFound
  | some u => .ok (stampUserDeleted st u.id)

/-- `UserService.restoreUser`: `findByPk(id, { paranoid: false })`, then
`NotDeleted` on an active row, else `restore()` and a sanitized refetch. -/
def restoreUser (st : Store) (id : Nat) :
    Except SvcError (Option PublicUser × Store) :=
  match st.users.find? (fun u => u.id == id) with
  | none => .error .notFound
  | some u =>
      if u.deletedAt == none then .error .notDeleted
      else
        let st' := clearUserDeleted st u.id
        .ok (((activeUsers st').find? (fun v => v.id == id)).map sanitize, st')

/-- `UserService.validatePassword`: default-visibility `findOne` by email,
`bcrypt.compare` against the stored hash, then a sanitized refetch. -/
def validatePassword (st : Store) (email password : String) : Option PublicUser :=
  match (activeUsers st).find? (fun u => u.email == email) with
  | none => none
  | some user =>
      if bcryptCompare password user.password then
        ((activeUsers st).find? (fun v => v.id == user.id)).map sanitize
      else none

/-- The record returned by `UserService.getUserStats`. -/
structure UserStats where
  total : Nat
  active : Nat
  deleted : Nat
  admins : Nat
  regular : Nat
deriving Repr, DecidableEq

/-- `UserService.getUserStats`: `User.count()` and the role counts run
under default (paranoid) visibility; the `deleted` count alone passes
`paranoid: false` with `deletedAt ≠ null`. -/
def getUserStats (st : Store) : UserStats :=
  { total := (activeUsers st).length
  , active := ((activeUsers st).filter (fun u => u.deletedAt == none)).length
  , deleted := (st.users.filter (fun u => u.deletedAt != none)).length
  , admins := ((activeUsers st).filter (fun u => u.role == "admin")).length
  , regular := ((activeUsers st).filter (fun u => u.role == "user")).length }

/-- Well-formedness the datastore's constraints guarantee: primary keys
and unique-indexed columns are pairwise distinct in each table. -/
def Store.WF (st : Store) : Prop :=
  st.users.Pairwise (fun a b => a.id ≠ b.id ∧ a.email ≠ b.email ∧ a.username ≠ b.username) ∧
  st.articles.Pairwise (fun a b => a.id ≠ b.id ∧ a.title ≠ b.title ∧ a.content ≠ b.content)

instance (st : Store) : Decidable st.WF := by
  unfold Store.WF; infer_instance

/-- Substring containment, the semantics of SQL `LIKE '%pat%'` modulo
case (handled by `likeContains`). -/
def containsSub (s pat : String) : Bool :=
  pat.isEmpty || (s.splitOn pat).length ≥ 2

/-- MySQL `LIKE` under the default case-insensitive collation. -/
def likeContains (s pat : String) : Bool :=
  containsSub s.toLower pat.toLower

/-- The sort columns `UserQueryOptions.sortBy` admits. -/
inductive USortField where
  | id
  | username
  | email
  | createdAt
deriving Repr, DecidableEq

/-- `ASC` / `DESC`. -/
inductive SortOrder where
  | asc
  | desc
deriving Repr, DecidableEq

/-- `Ordering` collapsed to "less or equal". -/
def ordIsLE : Ordering → Bool
  | .gt => false
  | _ => true

/-- String comparison for `ORDER BY` on a text column. -/
def strLe (a b : String) : Bool := ordIsLE (compare a b)

/-- Key comparison for `ORDER BY` on the users table. -/
def userLe : USortField → UserRec → UserRec → Bool
  | .id, a, b => decide (a.id ≤ b.id)
  | .username, a, b => strLe a.username b.username
  | .email, a, b => strLe a.email b.email
  | .createdAt, a, b => decide (a.createdAt ≤ b.createdAt)

/-- Ordered insert used by `sortLe`. -/
def insertLe {α : Type} (le : α → α → Bool) (a : α) : List α → List α
  | [] => [a]
  | b :: bs => if le a b then a :: b :: bs else b :: insertLe le a bs

/-- Insertion sort: the model of the storage layer's `ORDER BY`. -/
def sortLe {α : Type} (le : α → α → Bool) : List α → List α
  | [] => []
  | a :: as => insertLe le a (sortLe le as)

/-- `ORDER BY field ASC|DESC` over the users table. -/
def orderUsers (f : USortField) (ord : SortOrder) (l : List UserRec) : List UserRec :=
  match ord with
  | .asc => sortLe (userLe f) l
  | .desc => (sortLe (userLe f) l).reverse

/-- `UserQueryOptions` (`page`/`limit` are raw JS numbers, so `Int`). -/
structure UserQueryOptions where
  page : Option Int := none
  limit : Option Int := none
  search : Option String := none
  role : Option String := none
  sortBy : Option USortField := none
  sortOrder : Option SortOrder := none
deriving Repr, DecidableEq

/-- The pagination metadata block the listing returns. -/
structure Pagination where
  total : Nat
  page : Int
  limit : Int
  totalPages : Nat
deriving Repr, DecidableEq

/-- The result of `UserService.getUsers`. -/
structure UserListResult where
  users : List PublicUser
  pagination : Pagination
deriving Repr, DecidableEq

/-- `Math.ceil(total / limit)` for a positive integer `limit` (the only
range the theorems use; the JS float corner `limit = 0` — `Infinity` /
`NaN` — has no integer counterpart and is outside every statement). -/
def totalPagesCalc (total limit : Nat) : Nat :=
  (total + limit - 1) / limit

/-- The `WHERE` conjunction `getUsers` builds: an optional disjunctive
`LIKE` over username/email and an optional role equality. `if (search)`
and `if (role)` are JS truthiness tests, so `""` disables the filter. -/
def userMatches (search : Option String) (role : Option String) (u : UserRec) : Bool :=
  (match search with
   | none => true
   | some s =>
       if s.isEmpty then true
       else likeContains u.username s || likeContains u.email s) &&
  (match role with
   | none => true
   | some r => if r.isEmpty then true else u.role == r)

/-- `UserService.getUsers`: destructuring defaults `page = 1`,
`limit = 10`, `sortBy = 'createdAt'`, `sortOrder = 'DESC'`; no coercion
of `page`/`limit` is applied, so `offset = (page-1)*limit` may be
negative, and MySQL rejects a query with a negative `LIMIT`/`OFFSET`
(surfacing as the wrapped storage error). Rows come back password-free
and sliced; `total` is the unsliced match count. -/
def getUsers (st : Store) (opts : UserQueryOptions) : Except SvcError UserListResult :=
  let page := opts.page.getD 1
  let limit := opts.limit.getD 10
  let offset := (page - 1) * limit
  let matched := (activeUsers st).filter (userMatches opts.search opts.role)
  let sorted := orderUsers (opts.sortBy.getD .createdAt) (opts.sortOrder.getD .desc) matched
  if offset < 0 ∨ limit < 0 then .error .storageFailure
  else
    .ok { users := (((sorted.drop offset.toNat).take limit.toNat).map sanitize)
        , pagination :=
            { total := matched.length, page := page, limit := limit
            , totalPages := totalPagesCalc matched.length limit.toNat } }

/-- `UpdateUserData`. -/
structure UpdateUserData where
  username : Option String := none
  email : Option String := none
  password : Option String := none
  role : Option String := none
deriving Repr, DecidableEq

/-- Storage-level `UPDATE` of a user row: applies the patch, lets the
`@BeforeUpdate` hook re-hash a changed password field, and enforces the
unique indexes against every other row (soft-deleted included). -/
def User_dbUpdate (st : Store) (u : UserRec) (d : UpdateUserData) :
    Except SvcError (UserRec × Store) :=
  let u1 : UserRec :=
    { u with
        username := d.username.getD u.username
        email := d.email.getD u.email
        password := d.password.getD u.password
        role := d.role.getD u.role
        updatedAt := st.now }
  let u2 := if u1.password != u.password then { u1 with password := bcryptHash u1.password } else u1
  if st.users.any (fun v => v.id != u.id && v.username == u2.username) then .error .uniqueViolation
  else if st.users.any (fun v => v.id != u.id && v.email == u2.email) then .error .uniqueViolation
  else .ok (u2, { st with users := st.users.map (fun v => if v.id == u.id then u2 else v) })

/-- `UserService.updateUser`: default-visibility `findByPk`; duplicate
checks (default visibility, excluding this id) only when the field is
truthy and actually changing; a truthy password is hashed by the service
before the update (the hook then hashes it again); returns a sanitized
refetch. -/
def updateUser (st : Store) (id : Nat) (d : UpdateUserData) :
    Except SvcError (Option PublicUser × Store) :=
  match (activeUsers st).find? (fun u => u.id == id) with
  | none => .error .notFound
  | some user =>
      if jsTruthyStr d.email && (d.email.getD "" != user.email)
          && (activeUsers st).any (fun u => u.email == d.email.getD "" && u.id != id) then
        .error .emailTaken
      else if jsTruthyStr d.username && (d.username.getD "" != user.username)
          && (activeUsers st).any (fun u => u.username == d.username.getD "" && u.id != id) then
        .error .usernameTaken
      else
        let d' := if jsTruthyStr d.password
          then { d with password := some (bcryptHash (d.password.getD "")) } else d
        match User_dbUpdate st user d' with
        | .error e => .error e
        | .ok (_, st') =>
            .ok (((activeUsers st').find? (fun v => v.id == id)).map sanitize, st')

/-- Storage-level `INSERT` into `articles`: both declared unique indexes
(`article_title`, `article_content`) span all rows. -/
def Article_dbCreate (st : Store) (title content : String) (userId : Nat) :
    Except SvcError (ArticleRec × Store) :=
  if st.articles.any (fun a => a.title == title) then .error .uniqueViolation
  else if st.articles.any (fun a => a.content == content) then .error .uniqueViolation
  else
    let a : ArticleRec :=
      { id := st.nextArticleId, title := title, content := content, userId := userId
      , createdAt := st.now, updatedAt := st.now, deletedAt := none }
    .ok (a, { st with articles := st.articles ++ [a], nextArticleId := st.nextArticleId + 1 })

/-- `ArticleService.createArticle`: parent check via default-visibility
`User.findByPk`, then a default-visibility duplicate-title check, then
the insert. -/
def createArticle (st : Store) (title content : String) (userId : Nat) :
    Except SvcError (ArticleRec × Store) :=
  if !(activeUsers st).any (fun u => u.id == userId) then .error .parentNotFound
  else if (activeArticles st).any (fun a => a.title == title) then .error .titleTaken
  else Article_dbCreate st title content userId

/-- Storage-level `UPDATE` of an article row: applies the patch and
enforces both unique indexes against every other row. -/
def Article_dbUpdate (st : Store) (a : ArticleRec) (d : Option String × Option String) :
    Except SvcError (ArticleRec × Store) :=
  let a1 : ArticleRec :=
    { a with
        title := d.1.getD a.title
        content := d.2.getD a.content
        updatedAt := st.now }
  if st.articles.any (fun b => b.id != a.id && b.title == a1.title) then .error .uniqueViolation
  else if st.articles.any (fun b => b.id != a.id && b.content == a1.content) then .error .uniqueViolation
  else .ok (a1, { st with articles := st.articles.map (fun b => if b.id == a.id then a1 else b) })

/-- `ArticleService.updateArticle` (patch = (title?, content?)): default
visibility `findByPk`; `if (userId && article.userId !== userId)` is a JS
truthiness ownership check; duplicate-title check only when the new title
is truthy and changing. -/
def updateArticle (st : Store) (id : Nat) (d : Option String × Option String)
    (userId : Option Nat) : Except SvcError (ArticleRec × Store) :=
  match (activeArticles st).find? (fun a => a.id == id) with
  | none => .error .notFound
  | some article =>
      if jsTruthyNat userId && article.userId != userId.getD 0 then .error .forbidden
      else if jsTruthyStr d.1 && (d.1.getD "" != article.title)
          && (activeArticles st).any (fun a => a.title == d.1.getD "" && a.id != id) then
        .error .titleTaken
      else Article_dbUpdate st article d

/-- `destroy()` on an article instance. -/
def stampArticleDeleted (st : Store) (id : Nat) : Store :=
  { st with articles :=
      st.articles.map (fun b =>
        if b.id == id then { b with deletedAt := some st.now } else b) }

/-- `ArticleService.deleteArticle` (soft delete): default-visibility
`findByPk`, the same truthiness ownership check, then `destroy()`. -/
def deleteArticle (st : Store) (id : Nat) (userId : Option Nat) :
    Except SvcError Store :=
  match (activeArticles st).find? (fun a => a.id == id) with
  | none => .error .notFound
  | some article =>
      if jsTruthyNat userId && article.userId != userId.getD 0 then .error .forbidden
      else .ok (stampArticleDeleted st article.id)

/-- `restore()` on an article instance. -/
def clearArticleDeleted (st : Store) (id : Nat) : Store :=
  { st with articles :=
      st.articles.map (fun b =>
        if b.id == id then { b with deletedAt := none } else b) }

/-- `ArticleService.restoreArticle`: `findByPk(id, { paranoid: false })`,
`NotDeleted` on an active row, else `restore()`; returns the instance. -/
def restoreArticle (st : Store) (id : Nat) :
    Except SvcError (ArticleRec × Store) :=
  match st.articles.find? (fun a => a.id == id) with
  | none => .error .notFound
  | some article =>
      if article.deletedAt == none then .error .notDeleted
      else .ok ({ article with deletedAt := none }, clearArticleDeleted st article.id)

/-- A fresh, empty datastore. -/
def emptyStore : Store :=
  { users := [], articles := [], nextUserId := 1, nextArticleId := 1, now := 0 }

/-- A soft-deleted account whose stored credential hash matches the
plaintext "pw" (as a row created by a path that hashes only once). -/
def uAliceDel : UserRec :=
  { id := 1, username := "alice", email := "a@x.com", password := bcryptHash "pw"
  , role := "user", createdAt := 0, updatedAt := 0, deletedAt := some 1 }

/-- A store whose only account is the soft-deleted `uAliceDel`. -/
def stSoftDel : Store :=
  { users := [uAliceDel], articles := [], nextUserId := 2, nextArticleId := 1, now := 5 }

/-- An active article owned by account 1. -/
def artT1 : ArticleRec :=
  { id := 1, title := "T1", content := "c1", userId := 1
  , createdAt := 0, updatedAt := 0, deletedAt := none }

/-- A store holding only the article `artT1`. -/
def stOwn : Store :=
  { users := [], articles := [artT1], nextUserId := 1, nextArticleId := 2, now := 7 }

/-- An active account. -/
def uBob : UserRec :=
  { id := 1, username := "bob", email := "b@x.com", password := bcryptHash "x"
  , role := "user", createdAt := 0, updatedAt := 0, deletedAt := none }

/-- A store whose only account is the active `uBob`. -/
def stActive : Store :=
  { users := [uBob], articles := [], nextUserId := 2, nextArticleId := 1, now := 3 }

deriving instance DecidableEq for Except

theorem find?_eq_none_iff_any_eq_false {α : Type} {p : α → Bool} {l : List α} :
    l.find? p = none ↔ l.any p = false := by
  simp [List.find?_eq_none, List.any_eq_false]

theorem any_eq_true_of_find?_eq_some {α : Type} {p : α → Bool} {l : List α} {a : α}
    (h : l.find? p = some a) : l.any p = true :=
  List.any_eq_true.mpr ⟨a, List.mem_of_find?_eq_some h, List.find?_some h⟩

theorem find?_eq_some_of_unique {α : Type} {p : α → Bool} {x : α} :
    ∀ {l : List α}, x ∈ l → p x = true → (∀ y ∈ l, p y = true → y = x) →
      l.find? p = some x := by
  intro l
  induction l with
  | nil => intro h; cases h
  | cons a as ih =>
      intro hmem hpx huniq
      by_cases hpa : p a = true
      · have : a = x := huniq a (List.mem_cons_self a as) hpa
        simp [List.find?_cons, this, hpx]
      · have hxas : x ∈ as := by
          rcases List.mem_cons.mp hmem with h | h
          · exact absurd (h ▸ hpx) hpa
          · exact h
        have hpa' : p a = false := by simpa using hpa
        simp only [List.find?_cons, hpa']
        exact ih hxas hpx (fun y hy hpy => huniq y (List.mem_cons_of_mem a hy) hpy)

theorem eq_of_pairwise_mem {α : Type} {R : α → α → Prop} {x y : α} :
    ∀ {l : List α}, l.Pairwise R → x ∈ l → y ∈ l → ¬ R x y → ¬ R y x → x = y := by
  intro l
  induction l with
  | nil => intro _ hx; cases hx
  | cons a as ih =>
      intro hp hx hy hxy hyx
      rcases List.pairwise_cons.mp hp with ⟨ha, has⟩
      rcases List.mem_cons.mp hx with rfl | hx' <;> rcases List.mem_cons.mp hy with rfl | hy'
      · rfl
      · exact absurd (ha y hy') hxy
      · exact absurd (ha x hx') hyx
      · exact ih has hx' hy' hxy hyx

theorem mem_of_mem_insertLe {α : Type} {le : α → α → Bool} {x a : α} :
    ∀ {l : List α}, x ∈ insertLe le a l → x = a ∨ x ∈ l := by
  intro l
  induction l with
  | nil => intro h; simpa [insertLe] using h
  | cons b bs ih =>
      intro h
      by_cases hc : le a b = true
      · simpa [insertLe, hc, List.mem_cons] using h
      · have hc' : le a b = false := by simpa using hc
        simp only [insertLe, hc', Bool.false_eq_true, if_false, List.mem_cons] at h
        rcases h with rfl | h
        · exact Or.inr (List.mem_cons_self x bs)
        · rcases ih h with h | h
          · exact Or.inl h
          · exact Or.inr (List.mem_cons_of_mem b h)

theorem mem_of_mem_sortLe {α : Type} {le : α → α → Bool} {x : α} :
    ∀ {l : List α}, x ∈ sortLe le l → x ∈ l := by
  intro l
  induction l with
  | nil => intro h; simp [sortLe] at h
  | cons a as ih =>
      intro h
      rcases mem_of_mem_insertLe h with rfl | h
      · exact List.mem_cons_self x as
      · exact List.mem_cons_of_mem a (ih h)

theorem mem_of_mem_orderUsers {f : USortField} {ord : SortOrder} {x : UserRec}
    {l : List UserRec} (h : x ∈ orderUsers f ord l) : x ∈ l := by
  cases ord with
  | asc => exact mem_of_mem_sortLe h
  | desc => exact mem_of_mem_sortLe (List.mem_reverse.mp h)

/-- C1: the claim says a freshly created account (handle "alice", email
"a@x.com", credential "Secret1A") can then authenticate with that
credential. In the code `createUser` hashes the password and the model's
`@BeforeCreate` hook hashes the already-hashed value again, so the stored
hash is `hash (hash "Secret1A")`, `bcrypt.compare("Secret1A", stored)`
is false, and `validatePassword` returns null for the correct credential
as well as for the wrong one. The account itself is created Active. -/
theorem C1_double_hash_breaks_authentication :
    ∃ u st1, createUser emptyStore "alice" "a@x.com" "Secret1A" none = .ok (u, st1) ∧
      u.deletedAt = none ∧
      u.password = bcryptHash (bcryptHash "Secret1A") ∧
      validatePassword st1 "a@x.com" "Secret1A" = none ∧
      validatePassword st1 "a@x.com" "wrong" = none := by
  refine ⟨_, _, rfl, rfl, rfl, by decide, by decide⟩

/-- C2 counterexample: a store whose only record is a soft-deleted
account holding email "a@x.com". Creating a new account with that email
passes both service-level duplicate checks (they query with default,
soft-delete-excluding visibility) and fails only at the storage layer's
unique index — not with the service's DuplicateValue error. -/
theorem C2_softDeleted_value_not_DuplicateValue :
    (stSoftDel.users.any (fun u => u.email == "a@x.com" && u.deletedAt != none)) = true ∧
    createUser stSoftDel "bob" "a@x.com" "Pw1" none = .error .uniqueViolation ∧
    createUser stSoftDel "bob" "a@x.com" "Pw1" none ≠ .error .emailTaken := by
  refine ⟨by decide, by decide, by decide⟩

/-- C2 amended: the service's DuplicateValue pre-checks scan only Active
records (`emailTaken`/`usernameTaken`/`titleTaken` fire exactly when an
Active record holds the value), while a value held by any record in any
lifecycle state — including a soft-deleted one — still cannot be reused:
creation then fails at the storage layer's unique index instead. -/
theorem C2_unique_guard_scans_active_only :
    ∀ (st : Store) (un e pw : String) (role : Option String),
    (createUser st un e pw role = .error .emailTaken ↔
      (activeUsers st).any (fun u => u.email == e) = true) ∧
    (createUser st un e pw role = .error .usernameTaken ↔
      ((activeUsers st).any (fun u => u.email == e) = false ∧
       (activeUsers st).any (fun u => u.username == un) = true)) ∧
    ((st.users.any (fun u => u.email == e) = true ∨
      st.users.any (fun u => u.username == un) = true) →
      (createUser st un e pw role).isOk = false) ∧
    (∀ (title content : String) (uid : Nat),
      (createArticle st title content uid = .error .titleTaken ↔
        ((activeUsers st).any (fun u => u.id == uid) = true ∧
         (activeArticles st).any (fun a => a.title == title) = true)) ∧
      (st.articles.any (fun a => a.title == title) = true →
        (createArticle st title content uid).isOk = false)) := by
  intro st un e pw role
  refine ⟨?_, ?_, ?_, fun title content uid => ⟨?_, ?_⟩⟩
  · simp only [createUser, User_dbCreate]
    split_ifs <;> simp_all
  · simp only [createUser, User_dbCreate]
    split_ifs <;> simp_all
  · intro hor
    simp only [createUser, User_dbCreate]
    split_ifs <;> simp_all [Except.isOk, Except.toBool]
  · simp only [createArticle, Article_dbCreate]
    split_ifs <;> simp_all
  · intro hany
    simp only [createArticle, Article_dbCreate]
    split_ifs <;> simp_all [Except.isOk, Except.toBool]

/-- C2 amended witness: in the soft-deleted-holder store, creation with
the occupied email is not OK. -/
theorem C2_unique_guard_witness :
    (createUser stSoftDel "bob2" "a@x.com" "Pw1" none).isOk = false :=
  (C2_unique_guard_scans_active_only stSoftDel "bob2" "a@x.com" "Pw1" none).2.2.1
    (Or.inl (by decide))

/-- C3 counterexample: soft-deleting the already-SoftDeleted account 1
fails NotFound instead of succeeding — the lookup (`findByPk` under
default paranoid visibility) cannot see the soft-deleted row. -/
theorem C3_second_softDelete_fails :
    uAliceDel ∈ stSoftDel.users ∧ uAliceDel.id = 1 ∧ uAliceDel.deletedAt ≠ none ∧
    deleteUser stSoftDel 1 = .error .notFound := by
  refine ⟨by decide, by decide, by decide, by decide⟩

/-- C3 amended: softDelete succeeds exactly when an Active record with
that id exists; on an absent or already-SoftDeleted record it fails
NotFound, because the default-visibility lookup misses soft-deleted
rows (so re-deleting never re-stamps deleted-at). -/
theorem C3_softDelete_requires_active :
    ∀ (st : Store) (id : Nat),
    ((deleteUser st id).isOk = (activeUsers st).any (fun u => u.id == id)) ∧
    ((activeUsers st).any (fun u => u.id == id) = false →
      deleteUser st id = .error .notFound) ∧
    ((deleteArticle st id none).isOk = (activeArticles st).any (fun a => a.id == id)) ∧
    ((activeArticles st).any (fun a => a.id == id) = false →
      deleteArticle st id none = .error .notFound) := by
  intro st id
  refine ⟨?_, ?_, ?_, ?_⟩
  · cases hf : (activeUsers st).find? (fun u => u.id == id) with
    | none => simp [deleteUser, hf, find?_eq_none_iff_any_eq_false.mp hf, Except.isOk, Except.toBool]
    | some u => simp [deleteUser, hf, any_eq_true_of_find?_eq_some hf, Except.isOk, Except.toBool]
  · intro h
    simp [deleteUser, find?_eq_none_iff_any_eq_false.mpr h]
  · cases hf : (activeArticles st).find? (fun a => a.id == id) with
    | none => simp [deleteArticle, hf, find?_eq_none_iff_any_eq_false.mp hf, Except.isOk, Except.toBool]
    | some a => simp [deleteArticle, hf, any_eq_true_of_find?_eq_some hf, jsTruthyNat, Except.isOk, Except.toBool]
  · intro h
    simp [deleteArticle, find?_eq_none_iff_any_eq_false.mpr h]

/-- C4 counterexample: a soft-deleted account whose stored hash matches
the plaintext "pw" cannot authenticate — `validatePassword` looks the
account up with default (soft-delete-excluding) visibility, so the claim
that a SoftDeleted account is still found and can authenticate fails. -/
theorem C4_softDeleted_cannot_authenticate :
    bcryptCompare "pw" uAliceDel.password = true ∧
    uAliceDel ∈ stSoftDel.users ∧ uAliceDel.email = "a@x.com" ∧
    uAliceDel.deletedAt ≠ none ∧
    validatePassword stSoftDel "a@x.com" "pw" = none := by
  refine ⟨by decide, by decide, by decide, by decide, by decide⟩

/-- C4 amended: `authenticate` looks the account up under ActiveOnly
visibility: it succeeds exactly when an Active account holds the email
and the hash verification matches, and an account that holds the email
but is SoftDeleted never authenticates. -/
theorem C4_authenticate_active_only (st : Store) (h : st.WF) (e p : String) :
    ((validatePassword st e p).isSome = true ↔
      ∃ u ∈ st.users, u.deletedAt = none ∧ u.email = e ∧
        bcryptCompare p u.password = true) ∧
    (∀ u ∈ st.users, u.email = e → u.deletedAt ≠ none →
      validatePassword st e p = none) := by
  have emailsEq : ∀ x ∈ st.users, ∀ y ∈ st.users, x.email = y.email → x = y := by
    intro x hx y hy hxy
    exact eq_of_pairwise_mem h.1 hx hy (fun hR => hR.2.1 hxy) (fun hR => hR.2.1 hxy.symm)
  constructor
  · constructor
    · intro hs
      unfold validatePassword at hs
      cases hf : (activeUsers st).find? (fun u => u.email == e) with
      | none => rw [hf] at hs; simp at hs
      | some u =>
          rw [hf] at hs
          by_cases hc : bcryptCompare p u.password = true
          · refine ⟨u, (List.mem_filter.mp (List.mem_of_find?_eq_some hf)).1, ?_, ?_, hc⟩
            · have := (List.mem_filter.mp (List.mem_of_find?_eq_some hf)).2
              simpa using this
            · have := List.find?_some hf
              simpa using this
          · have hc' : bcryptCompare p u.password = false := by simpa using hc
            simp [hc'] at hs
    · rintro ⟨u, hu, hdel, hemail, hcmp⟩
      have humem : u ∈ activeUsers st := List.mem_filter.mpr ⟨hu, by simp [hdel]⟩
      have hfind : (activeUsers st).find? (fun v => v.email == e) = some u := by
        apply find?_eq_some_of_unique humem (by simp [hemail])
        intro y hy hpy
        have hy' : y ∈ st.users := (List.mem_filter.mp hy).1
        have hye : y.email = e := by simpa using hpy
        exact emailsEq y hy' u hu (hye.trans hemail.symm)
      have hsome : ((activeUsers st).find? (fun v => v.id == u.id)).isSome = true :=
        List.find?_isSome.mpr ⟨u, humem, by simp⟩
      simp [validatePassword, hfind, hcmp, hsome]
  · intro u hu hemail hdel
    have hnone : (activeUsers st).find? (fun v => v.email == e) = none := by
      rw [List.find?_eq_none]
      intro y hy hpy
      have hy' : y ∈ st.users := (List.mem_filter.mp hy).1
      have hya : (y.deletedAt == none) = true := (List.mem_filter.mp hy).2
      have hye : y.email = e := by simpa using hpy
      have heq : y = u := emailsEq y hy' u hu (hye.trans hemail.symm)
      exact hdel (by simpa [heq] using hya)
    simp [validatePassword, hnone]

/-- C4 amended witness: in the soft-deleted-holder store, authentication
with the matching credential returns nothing. -/
theorem C4_authenticate_witness : validatePassword stSoftDel "a@x.com" "pw" = none :=
  (C4_authenticate_active_only stSoftDel (by decide) "a@x.com" "pw").2
    uAliceDel (by decide) (by decide) (by decide)


/-- C5 counterexample: `createUser` returns the raw created row, and that
row carries the credential-hash field (the doubly hashed password), so
the create operation does return the credential hash to its caller. -/
theorem C5_create_returns_credential_hash :
    ∃ u st1, createUser emptyStore "carol" "c@x.com" "Topsecret9" none = .ok (u, st1) ∧
      u.password = bcryptHash (bcryptHash "Topsecret9") ∧ u.password ≠ "" := by
  refine ⟨_, _, rfl, rfl, by decide⟩

/-- C5 amended: every read path other than create — getById, list,
update, authenticate, restore — returns only credential-free views
(images of `sanitize`, which ignores the password column); create alone
returns the full row including the credential hash. -/
theorem C5_reads_strip_credential :
    (∀ (u : UserRec) (p : String), sanitize { u with password := p } = sanitize u) ∧
    (∀ (st : Store) (id : Nat) (r : PublicUser), getUserById st id = some r →
      ∃ u ∈ st.users, r = sanitize u) ∧
    (∀ (st : Store) (opts : UserQueryOptions) (res : UserListResult) (r : PublicUser),
      getUsers st opts = .ok res → r ∈ res.users → ∃ u ∈ st.users, r = sanitize u) ∧
    (∀ (st : Store) (id : Nat) (d : UpdateUserData) (res : Option PublicUser)
      (st' : Store) (r : PublicUser), updateUser st id d = .ok (res, st') →
      res = some r → ∃ u ∈ st'.users, r = sanitize u) ∧
    (∀ (st : Store) (e p : String) (r : PublicUser), validatePassword st e p = some r →
      ∃ u ∈ st.users, r = sanitize u) ∧
    (∀ (st : Store) (id : Nat) (res : Option PublicUser) (st' : Store) (r : PublicUser),
      restoreUser st id = .ok (res, st') → res = some r →
      ∃ u ∈ st'.users, r = sanitize u) := by
  refine ⟨fun u p => rfl, ?_, ?_, ?_, ?_, ?_⟩
  · intro st id r hr
    unfold getUserById at hr
    rw [Option.map_eq_some'] at hr
    obtain ⟨u, hu, hur⟩ := hr
    exact ⟨u, (List.mem_filter.mp (List.mem_of_find?_eq_some hu)).1, hur.symm⟩
  · intro st opts res r hres hr
    simp only [getUsers] at hres
    split at hres
    · simp at hres
    · simp only [Except.ok.injEq] at hres
      subst hres
      simp only [List.mem_map] at hr
      obtain ⟨x, hx, hxr⟩ := hr
      have hx1 : x ∈ orderUsers (opts.sortBy.getD .createdAt) (opts.sortOrder.getD .desc)
          ((activeUsers st).filter (userMatches opts.search opts.role)) :=
        List.drop_subset _ _ (List.take_subset _ _ hx)
      have hx2 := mem_of_mem_orderUsers hx1
      exact ⟨x, (List.mem_filter.mp (List.mem_filter.mp hx2).1).1, hxr.symm⟩
  · intro st id d res st' r h hres
    unfold updateUser at h
    split at h
    · simp at h
    · split at h
      · simp at h
      · split at h
        · simp at h
        · split at h
          all_goals
            dsimp only at h
            split at h
            · simp at h
            · simp only [Except.ok.injEq, Prod.mk.injEq] at h
              obtain ⟨hres', hst⟩ := h
              subst hst
              rw [← hres', Option.map_eq_some'] at hres
              obtain ⟨v, hv, hvr⟩ := hres
              exact ⟨v, (List.mem_filter.mp (List.mem_of_find?_eq_some hv)).1, hvr.symm⟩
  · intro st e p r h
    unfold validatePassword at h
    split at h
    · simp at h
    · split at h
      · rw [Option.map_eq_some'] at h
        obtain ⟨v, hv, hvr⟩ := h
        exact ⟨v, (List.mem_filter.mp (List.mem_of_find?_eq_some hv)).1, hvr.symm⟩
      · simp at h
  · intro st id res st' r h hres
    unfold restoreUser at h
    split at h
    · simp at h
    · split at h
      · simp at h
      · simp only [Except.ok.injEq, Prod.mk.injEq] at h
        obtain ⟨hres', hst⟩ := h
        subst hst
        rw [← hres', Option.map_eq_some'] at hres
        obtain ⟨v, hv, hvr⟩ := hres
        exact ⟨v, (List.mem_filter.mp (List.mem_of_find?_eq_some hv)).1, hvr.symm⟩

/-- C5 amended witness: a concrete getById result is a sanitize image. -/
theorem C5_reads_strip_witness : ∃ u ∈ stActive.users, sanitize uBob = sanitize u :=
  C5_reads_strip_credential.2.1 stActive 1 (sanitize uBob) (by decide)

/-- C6: for both entity kinds, restore succeeds exactly when the record
is currently SoftDeleted (the lookup passes `paranoid: false`, i.e.
IncludeDeleted visibility); a found-but-Active record fails NotDeleted
and an absent (purged or never-created) id fails NotFound. -/
theorem C6_restore_iff_softDeleted (st : Store) (h : st.WF) (id : Nat) :
    ((restoreUser st id).isOk = true ↔
      ∃ u ∈ st.users, u.id = id ∧ u.deletedAt ≠ none) ∧
    (∀ u ∈ st.users, u.id = id → u.deletedAt = none →
      restoreUser st id = .error .notDeleted) ∧
    ((∀ u ∈ st.users, u.id ≠ id) → restoreUser st id = .error .notFound) ∧
    ((restoreArticle st id).isOk = true ↔
      ∃ a ∈ st.articles, a.id = id ∧ a.deletedAt ≠ none) ∧
    (∀ a ∈ st.articles, a.id = id → a.deletedAt = none →
      restoreArticle st id = .error .notDeleted) ∧
    ((∀ a ∈ st.articles, a.id ≠ id) → restoreArticle st id = .error .notFound) := by
  have idsEqU : ∀ x ∈ st.users, ∀ y ∈ st.users, x.id = y.id → x = y := by
    intro x hx y hy hxy
    exact eq_of_pairwise_mem h.1 hx hy (fun hR => hR.1 hxy) (fun hR => hR.1 hxy.symm)
  have idsEqA : ∀ x ∈ st.articles, ∀ y ∈ st.articles, x.id = y.id → x = y := by
    intro x hx y hy hxy
    exact eq_of_pairwise_mem h.2 hx hy (fun hR => hR.1 hxy) (fun hR => hR.1 hxy.symm)
  refine ⟨⟨?_, ?_⟩, ?_, ?_, ⟨?_, ?_⟩, ?_, ?_⟩
  · intro hs
    unfold restoreUser at hs
    split at hs
    · simp [Except.isOk, Except.toBool] at hs
    · rename_i u hfind
      split at hs
      · simp [Except.isOk, Except.toBool] at hs
      · rename_i hact
        refine ⟨u, List.mem_of_find?_eq_some hfind, ?_, ?_⟩
        · have := List.find?_some hfind
          simpa using this
        · simpa using hact
  · rintro ⟨u, hu, hid, hdel⟩
    have hfind : st.users.find? (fun v => v.id == id) = some u := by
      apply find?_eq_some_of_unique hu (by simp [hid])
      intro y hy hpy
      exact idsEqU y hy u hu (by simpa [hid] using hpy)
    have hne : (u.deletedAt == none) = false := beq_eq_false_iff_ne.mpr hdel
    simp [restoreUser, hfind, hne, Except.isOk, Except.toBool]
  · intro u hu hid hdel
    have hfind : st.users.find? (fun v => v.id == id) = some u := by
      apply find?_eq_some_of_unique hu (by simp [hid])
      intro y hy hpy
      exact idsEqU y hy u hu (by simpa [hid] using hpy)
    simp [restoreUser, hfind, hdel]
  · intro hall
    have hfind : st.users.find? (fun v => v.id == id) = none := by
      rw [List.find?_eq_none]
      intro y hy hpy
      exact hall y hy (by simpa using hpy)
    simp [restoreUser, hfind]
  · intro hs
    unfold restoreArticle at hs
    split at hs
    · simp [Except.isOk, Except.toBool] at hs
    · rename_i a hfind
      split at hs
      · simp [Except.isOk, Except.toBool] at hs
      · rename_i hact
        refine ⟨a, List.mem_of_find?_eq_some hfind, ?_, ?_⟩
        · have := List.find?_some hfind
          simpa using this
        · simpa using hact
  · rintro ⟨a, ha, hid, hdel⟩
    have hfind : st.articles.find? (fun b => b.id == id) = some a := by
      apply find?_eq_some_of_unique ha (by simp [hid])
      intro y hy hpy
      exact idsEqA y hy a ha (by simpa [hid] using hpy)
    have hne : (a.deletedAt == none) = false := beq_eq_false_iff_ne.mpr hdel
    simp [restoreArticle, hfind, hne, Except.isOk, Except.toBool]
  · intro a ha hid hdel
    have hfind : st.articles.find? (fun b => b.id == id) = some a := by
      apply find?_eq_some_of_unique ha (by simp [hid])
      intro y hy hpy
      exact idsEqA y hy a ha (by simpa [hid] using hpy)
    simp [restoreArticle, hfind, hdel]
  · intro hall
    have hfind : st.articles.find? (fun b => b.id == id) = none := by
      rw [List.find?_eq_none]
      intro y hy hpy
      exact hall y hy (by simpa using hpy)
    simp [restoreArticle, hfind]

/-- C6 witness: restoring the soft-deleted account 1 succeeds. -/
theorem C6_restore_witness : (restoreUser stSoftDel 1).isOk = true :=
  (C6_restore_iff_softDeleted stSoftDel (by decide) 1).1.mpr
    ⟨uAliceDel, by decide, by decide, by decide⟩

/-- C7 counterexample: account 1 exists (soft-deleted) in the store, yet
creating a document owned by it fails ParentNotFound — the guard's
`findByPk` runs under default visibility and only accepts an Active
parent, contradicting "exactly when no Account exists in any state". -/
theorem C7_softDeleted_parent_rejected :
    (stSoftDel.users.any (fun u => u.id == 1)) = true ∧
    createArticle stSoftDel "T1" "c1" 1 = .error .parentNotFound := by
  refine ⟨by decide, by decide⟩

/-- C7 amended: creating a Document fails ParentNotFound exactly when no
ACTIVE account with the given ownerId exists (a soft-deleted account is
rejected as a parent); when creation succeeds the parent was active, and
on any failure no row is persisted (the error result carries no store). -/
theorem C7_parent_guard_active_only :
    ∀ (st : Store) (title content : String) (uid : Nat),
    (createArticle st title content uid = .error .parentNotFound ↔
      (activeUsers st).any (fun u => u.id == uid) = false) ∧
    (∀ a st', createArticle st title content uid = .ok (a, st') →
      (activeUsers st).any (fun u => u.id == uid) = true) := by
  intro st title content uid
  constructor
  · simp only [createArticle, Article_dbCreate]
    split_ifs <;> simp_all
  · intro a st' hok
    simp only [createArticle, Article_dbCreate] at hok
    split_ifs at hok
    all_goals simp_all

/-- C8 counterexample: with `page = 0` supplied, the listing does not
coerce the page to a positive integer — the computed offset is `-10` and
the query fails at the storage layer instead of returning a page. -/
theorem C8_nonpositive_page_not_coerced :
    getUsers emptyStore { page := some 0 } = .error .storageFailure := by
  decide

/-- C8 amended: `page` defaults to 1 and `limit` to 10, but no coercion
to positive integers is performed (a non-positive page makes the offset
negative and the query fails at the storage layer). For positive page
and limit the listing succeeds: metadata carries the unsliced match
count, the requested page and limit, `totalPages = ceil(total/limit)`
(0 when total is 0, and e.g. `ceil(23/10) = 3`), and the rows are the
ordered matches sliced at offset `(page-1)*limit`, capped at `limit`. -/
theorem C8_pagination_contract (st : Store) (opts : UserQueryOptions)
    (hp : 1 ≤ opts.page.getD 1) (hl : 1 ≤ opts.limit.getD 10) :
    ∃ r, getUsers st opts = .ok r ∧
      r.pagination.page = opts.page.getD 1 ∧
      r.pagination.limit = opts.limit.getD 10 ∧
      r.pagination.total =
        ((activeUsers st).filter (userMatches opts.search opts.role)).length ∧
      r.pagination.totalPages =
        totalPagesCalc r.pagination.total (opts.limit.getD 10).toNat ∧
      (r.pagination.total = 0 → r.pagination.totalPages = 0) ∧
      r.users = (((orderUsers (opts.sortBy.getD .createdAt) (opts.sortOrder.getD .desc)
          ((activeUsers st).filter (userMatches opts.search opts.role))).drop
            ((opts.page.getD 1 - 1) * opts.limit.getD 10).toNat).take
              (opts.limit.getD 10).toNat).map sanitize ∧
      totalPagesCalc 23 10 = 3 ∧ totalPagesCalc 0 10 = 0 := by
  have hoff : ¬ ((opts.page.getD 1 - 1) * opts.limit.getD 10 < 0 ∨ opts.limit.getD 10 < 0) := by
    push_neg
    constructor
    · exact Int.mul_nonneg (by omega) (by omega)
    · omega
  have hok : getUsers st opts = .ok
      { users := (((orderUsers (opts.sortBy.getD .createdAt) (opts.sortOrder.getD .desc)
            ((activeUsers st).filter (userMatches opts.search opts.role))).drop
              ((opts.page.getD 1 - 1) * opts.limit.getD 10).toNat).take
                (opts.limit.getD 10).toNat).map sanitize
        pagination :=
          { total := ((activeUsers st).filter (userMatches opts.search opts.role)).length
            page := opts.page.getD 1
            limit := opts.limit.getD 10
            totalPages := totalPagesCalc
              ((activeUsers st).filter (userMatches opts.search opts.role)).length
              (opts.limit.getD 10).toNat } } := by
    simp only [getUsers]
    rw [if_neg hoff]
  refine ⟨_, hok, rfl, rfl, rfl, rfl, ?_, rfl, by decide, by decide⟩
  · intro h0
    simp only at h0
    simp only [h0, totalPagesCalc]
    exact Nat.div_eq_of_lt (by omega)

/-- C8 amended witness: the default listing on a fresh store succeeds
with page 1, limit 10 and zero totalPages. -/
theorem C8_pagination_witness :
    ∃ r, getUsers emptyStore {} = .ok r ∧
      r.pagination.page = 1 ∧ r.pagination.limit = 10 ∧ r.pagination.totalPages = 0 := by
  obtain ⟨r, hok, hpage, hlimit, htotal, htp, hz, _⟩ :=
    C8_pagination_contract emptyStore {} (by decide) (by decide)
  exact ⟨r, hok, hpage, hlimit, hz (by rw [htotal]; decide)⟩

/-- C9 counterexample: actorId 0 is supplied and differs from the
document's owner (1), yet both mutations proceed instead of failing
Forbidden — `if (userId && ...)` treats the supplied 0 as "absent". -/
theorem C9_zero_actor_bypasses_ownership :
    artT1.userId ≠ 0 ∧
    (updateArticle stOwn 1 (none, some "c2") (some 0)).isOk = true ∧
    (deleteArticle stOwn 1 (some 0)).isOk = true := by
  refine ⟨by decide, by decide, by decide⟩

/-- C9 amended: when the supplied actorId is nonzero (truthy) and does
not equal the document's owner-id, update and softDelete fail Forbidden
(and, failing, leave the store unchanged); when actorId is absent no
ownership check happens — the result is never Forbidden and a found
document is soft-deleted unconditionally. -/
theorem C9_ownership_modes :
    ∀ (st : Store) (id : Nat) (d : Option String × Option String),
    (∀ (aid : Nat) (a : ArticleRec), st.WF → a ∈ st.articles → a.deletedAt = none →
      a.id = id → aid ≠ 0 → a.userId ≠ aid →
      updateArticle st id d (some aid) = .error .forbidden ∧
      deleteArticle st id (some aid) = .error .forbidden) ∧
    (updateArticle st id d none ≠ .error .forbidden) ∧
    (deleteArticle st id none ≠ .error .forbidden) ∧
    ((activeArticles st).any (fun a => a.id == id) = true →
      (deleteArticle st id none).isOk = true) := by
  intro st id d
  refine ⟨?_, ?_, ?_, ?_⟩
  · intro aid a hwf ha hact hid haid hown
    have hmem : a ∈ activeArticles st := List.mem_filter.mpr ⟨ha, by simp [hact]⟩
    have hfind : (activeArticles st).find? (fun b => b.id == id) = some a := by
      apply find?_eq_some_of_unique hmem (by simp [hid])
      intro y hy hpy
      have hy' : y ∈ st.articles := (List.mem_filter.mp hy).1
      have hyid : y.id = id := by simpa using hpy
      exact eq_of_pairwise_mem hwf.2 hy' ha
        (fun hR => hR.1 (hyid.trans hid.symm)) (fun hR => hR.1 (hid.trans hyid.symm))
    have hcond : (jsTruthyNat (some aid) && a.userId != (some aid).getD 0) = true := by
      simp [jsTruthyNat, haid, hown]
    constructor
    · unfold updateArticle
      rw [hfind]
      dsimp only
      rw [if_pos hcond]
    · unfold deleteArticle
      rw [hfind]
      dsimp only
      rw [if_pos hcond]
  · intro hbad
    unfold updateArticle at hbad
    split at hbad
    · simp at hbad
    · split at hbad
      · rename_i hcond
        simp [jsTruthyNat] at hcond
      · split at hbad
        · simp at hbad
        · unfold Article_dbUpdate at hbad
          dsimp only at hbad
          split_ifs at hbad
          all_goals simp_all
  · intro hbad
    unfold deleteArticle at hbad
    split at hbad
    · simp at hbad
    · split at hbad
      · rename_i hcond
        simp [jsTruthyNat] at hcond
      · simp at hbad
  · intro hany
    obtain ⟨a, ha, hpa⟩ := List.any_eq_true.mp hany
    have hfind : ((activeArticles st).find? (fun b => b.id == id)).isSome = true :=
      List.find?_isSome.mpr ⟨a, ha, hpa⟩
    obtain ⟨b, hb⟩ := Option.isSome_iff_exists.mp hfind
    simp [deleteArticle, hb, jsTruthyNat, Except.isOk, Except.toBool]

/-- C9 amended witness: a nonzero non-owner actor is rejected. -/
theorem C9_ownership_witness :
    updateArticle stOwn 1 (none, none) (some 2) = .error .forbidden ∧
    deleteArticle stOwn 1 (some 2) = .error .forbidden :=
  (C9_ownership_modes stOwn 1 (none, none)).1 2 artT1 (by decide) (by decide)
    (by decide) (by decide) (by decide) (by decide)

/-- C10: the stats total is counted under default (soft-delete-excluding)
visibility, so it always equals the active count, and whenever some
account is SoftDeleted the total differs from active + deleted. -/
theorem C10_stats_total_counts_active_only :
    ∀ st : Store,
    (getUserStats st).total = (getUserStats st).active ∧
    (∀ u ∈ st.users, u.deletedAt ≠ none →
      (getUserStats st).total ≠ (getUserStats st).active + (getUserStats st).deleted) := by
  intro st
  have hta : (getUserStats st).total = (getUserStats st).active := by
    simp only [getUserStats]
    rw [List.filter_eq_self.mpr]
    intro a ha
    exact (List.mem_filter.mp ha).2
  refine ⟨hta, ?_⟩
  intro u hu hdel
  have hdel1 : 1 ≤ (getUserStats st).deleted := by
    have hmem : u ∈ st.users.filter (fun v => v.deletedAt != none) :=
      List.mem_filter.mpr ⟨hu, by simpa using hdel⟩
    have := List.length_pos.mpr (List.ne_nil_of_mem hmem)
    simpa [getUserStats] using this
  omega

/-- C10 witness: in the store with one soft-deleted account, total (1
active-visible count is 0) differs from active + deleted. -/
theorem C10_stats_witness :
    (getUserStats stSoftDel).total ≠
      (getUserStats stSoftDel).active + (getUserStats stSoftDel).deleted :=
  (C10_stats_total_counts_active_only stSoftDel).2 uAliceDel (by decide) (by decide)

/-- C3 amended witness: soft-deleting an id with no Active record (it is
soft-deleted already in `stSoftDel`) fails NotFound. -/
theorem C3_softDelete_witness : deleteUser stSoftDel 1 = .error .notFound :=
  (C3_softDelete_requires_active stSoftDel 1).2.1 (by decide)

/-- C7 amended witness: with no Active account 1 in `stOwn`, document
creation fails ParentNotFound. -/
theorem C7_parent_guard_witness :
    createArticle stOwn "T2" "c9" 1 = .error .parentNotFound :=
  (C7_parent_guard_active_only stOwn "T2" "c9" 1).1.mpr (by decide)
